import Mathlib

/-!
Verification of the agentic-ai multi-agent orchestration core.

This file shallowly embeds the Python source under `src/` into Lean:

* `src/agents/base_agent.py` — `parse_tool_call`, `execute_tool`, `think`
* `src/agents/planner.py` — `create_plan` (the parsing stage, parameterized
  by the model reply produced by `think`)
* `src/agents/orchestrator.py` — `process_task`, `_synthesize_results`
* `src/enhanced-agent.py` — `execute_tool_with_retry`, `_classify_error`,
  `_should_retry`

Conventions of the embedding:

* Python strings are Lean `String`s; Python string methods (`strip`, `split`,
  `lower`, `title`, `in`, slicing, `find`/`rfind`) are re-implemented over
  `List Char` with Python semantics.
* `json.loads` is embedded as `jsonLoads`, a recursive-descent decoder for the
  JSON subset exercised by this system (null, booleans, integers, strings
  with simple escapes, arrays, objects; floats and `\u` escapes are outside
  the modelled subset).  `json.dumps` is embedded as `Json.dump`
  (compact, default separators) and `Json.dumpIndent` (for `indent=2`).
* Python exceptions are `Except String` values; a function that cannot raise
  is total.  A Python `dict` is an association list with insert-overwrite.
* Wall-clock times, token metrics and console output are not modelled; the
  `time.sleep` calls of the retry loop are recorded as a ghost trace of
  sleep durations (milliseconds) so that backoff behaviour is statable.
-/

namespace AgenticAI

/-! ## Characters that the repository's string literals use -/

def lbraceC : Char := Char.ofNat 123

def rbraceC : Char := Char.ofNat 125

def quoteC : Char := Char.ofNat 34

def squoteC : Char := Char.ofNat 39

def backslashC : Char := Char.ofNat 92

def lbrace : String := String.mk [lbraceC]

def rbrace : String := String.mk [rbraceC]

def squote : String := String.mk [squoteC]

/-! ## Python string primitives -/

/-- Whitespace for Python `str.strip()` and the JSON lexer. -/
def isPyWs (c : Char) : Bool :=
  c = ' ' || c = '\t' || c = '\n' || c = '\r' || c = Char.ofNat 11 || c = Char.ofNat 12

/-- Strip characters satisfying `p` from both ends of a character list. -/
def listStrip (p : Char → Bool) (l : List Char) : List Char :=
  ((l.dropWhile p).reverse.dropWhile p).reverse

/-- Python `s.strip()`. -/
def pyStrip (s : String) : String :=
  String.mk (listStrip isPyWs s.data)

/-- Python `s.strip(chars)` for an explicit character set. -/
def pyStripChars (cs : List Char) (s : String) : String :=
  String.mk (listStrip (fun c => cs.contains c) s.data)

/-- Python `s.lower()` (ASCII, which is all this system needs). -/
def pyLower (s : String) : String :=
  String.mk (s.data.map Char.toLower)

/-- Boolean test for `sub <+: l` on lists, by direct recursion. -/
def listIsPrefix (sub : List Char) (l : List Char) : Bool :=
  match sub, l with
  | [], _ => true
  | _ :: _, [] => false
  | a :: sub', b :: l' => a = b && listIsPrefix sub' l'

/-- Boolean test for `sub <:+: l` on lists, by direct recursion. -/
def listIsInfix (sub : List Char) (l : List Char) : Bool :=
  match l with
  | [] => listIsPrefix sub []
  | _ :: l' => listIsPrefix sub l || listIsInfix sub l'

/-- Python `sub in s` on strings. -/
def pyContains (s sub : String) : Bool :=
  listIsInfix sub.data s.data

/-- Split a character list on a nonempty separator, Python `str.split(sep)`.
The fuel argument (instantiated with the list length, which bounds the
number of split steps) keeps the recursion structural. -/
def listSplitOn (s0 : Char) (srest : List Char) : Nat → List Char → List (List Char)
  | _, [] => [[]]
  | 0, l => [l]
  | fuel + 1, c :: rest =>
    if listIsPrefix (s0 :: srest) (c :: rest) then
      [] :: listSplitOn s0 srest fuel ((c :: rest).drop (s0 :: srest).length)
    else
      match listSplitOn s0 srest fuel rest with
      | [] => [[c]]
      | hd :: tl => (c :: hd) :: tl

/-- Python `s.split(sep)` for a nonempty separator (the only use in the
source; Python raises on an empty separator, which never happens here). -/
def pySplit (s sep : String) : List String :=
  match sep.data with
  | [] => [s]
  | s0 :: srest => (listSplitOn s0 srest s.data.length s.data).map String.mk

/-- Python `s.split(sep, 1)`: split once, returning the two sides.
When `sep` does not occur the second component is irrelevant to callers
(the code always guards with `sep in s`). -/
def pySplitOnce (s sep : String) : String × String :=
  match pySplit s sep with
  | [] => (s, "")
  | [x] => (x, "")
  | x :: rest => (x, String.intercalate sep rest)

/-- Python `s.startswith(prefix)`. -/
def pyStartsWith (s pre : String) : Bool :=
  listIsPrefix pre.data s.data

/-- Python `s.endswith(suffix)`. -/
def pyEndsWith (s suf : String) : Bool :=
  listIsPrefix suf.data.reverse s.data.reverse

/-- Python `s.find(c)` for a single character: first index or `-1`. -/
def pyFindChar (s : String) (c : Char) : Int :=
  match s.data.findIdx? (· = c) with
  | some i => (i : Int)
  | none => -1

/-- Python `s.rfind(c)` for a single character: last index or `-1`. -/
def pyRFindChar (s : String) (c : Char) : Int :=
  match s.data.reverse.findIdx? (· = c) with
  | some i => ((s.data.length - 1 - i : Nat) : Int)
  | none => -1

/-- Python slicing `s[a:b]` for `0 ≤ a ≤ b` within bounds. -/
def pySlice (s : String) (a b : Nat) : String :=
  String.mk ((s.data.drop a).take (b - a))

/-- Python `str.title()`: uppercase every letter that follows a non-letter,
lowercase the other letters. -/
def pyTitleAux : Bool → List Char → List Char
  | _, [] => []
  | prevAlpha, c :: rest =>
    (if c.isAlpha then (if prevAlpha then c.toLower else c.toUpper) else c)
      :: pyTitleAux c.isAlpha rest

/-- Python `s.title()`. -/
def pyTitle (s : String) : String :=
  String.mk (pyTitleAux false s.data)

/-! ## Association lists with Python dict semantics -/

/-- Lookup in an association list (Python `d.get(k)` / `d[k]`). -/
def lookupKV {α β : Type} [DecidableEq α] : List (α × β) → α → Option β
  | [], _ => none
  | (k', v) :: rest, k => if k' = k then some v else lookupKV rest k

/-- Insert with overwrite, keeping the original position of an existing key
(Python `d[k] = v`). -/
def insertKV {α β : Type} [DecidableEq α] : List (α × β) → α → β → List (α × β)
  | [], k, v => [(k, v)]
  | (k', v') :: rest, k, v =>
    if k' = k then (k, v) :: rest else (k', v') :: insertKV rest k v

/-- Python `k in d`. -/
def hasKV {α β : Type} [DecidableEq α] (l : List (α × β)) (k : α) : Bool :=
  (lookupKV l k).isSome

/-! ## JSON values

Embedding of the Python objects that `json.loads` produces and `json.dumps`
consumes in this repository: `None`, booleans, integers, strings, lists and
string-keyed dicts.  Floats and unicode escapes are outside the modelled
subset (nothing in the verified claims produces them). -/

inductive Json where
  | null
  | bool (b : Bool)
  | int (n : Int)
  | str (s : String)
  | arr (xs : List Json)
  | obj (kvs : List (String × Json))

/-- Python truthiness (`if context:`). -/
def Json.pyTruthy : Json → Bool
  | .null => false
  | .bool b => b
  | .int n => n ≠ 0
  | .str s => s ≠ ""
  | .arr xs => !xs.isEmpty
  | .obj kvs => !kvs.isEmpty

/-- Whether the Python value is hashable (lists and dicts are not; using an
unhashable value in a dict membership test raises `TypeError`). -/
def Json.isHashable : Json → Bool
  | .arr _ => false
  | .obj _ => false
  | _ => true

/-- Escape one character the way `json.dumps` does for the characters this
system produces. -/
def jsonEscapeChar (c : Char) : List Char :=
  if c = quoteC then [backslashC, quoteC]
  else if c = backslashC then [backslashC, backslashC]
  else if c = '\n' then [backslashC, 'n']
  else if c = '\t' then [backslashC, 't']
  else if c = '\r' then [backslashC, 'r']
  else [c]

/-- String contents as serialized by `json.dumps` (without the quotes). -/
def jsonEscape (s : String) : String :=
  String.mk (List.flatten (s.data.map jsonEscapeChar))

mutual

/-- `json.dumps(v, ensure_ascii=False)` with the default separators. -/
def Json.dump : Json → String
  | .null => "null"
  | .bool true => "true"
  | .bool false => "false"
  | .int n => toString n
  | .str s => String.mk [quoteC] ++ jsonEscape s ++ String.mk [quoteC]
  | .arr xs => "[" ++ Json.dumpList xs ++ "]"
  | .obj kvs => lbrace ++ Json.dumpObj kvs ++ rbrace

def Json.dumpList : List Json → String
  | [] => ""
  | [x] => Json.dump x
  | x :: y :: rest => Json.dump x ++ ", " ++ Json.dumpList (y :: rest)

def Json.dumpObj : List (String × Json) → String
  | [] => ""
  | [(k, v)] => String.mk [quoteC] ++ jsonEscape k ++ String.mk [quoteC] ++ ": " ++ Json.dump v
  | (k, v) :: y :: rest =>
    String.mk [quoteC] ++ jsonEscape k ++ String.mk [quoteC] ++ ": " ++ Json.dump v
      ++ ", " ++ Json.dumpObj (y :: rest)

end

/-- Indentation prefix used by `json.dumps(..., indent=2)`. -/
def jsonIndent (level : Nat) : String :=
  String.mk (List.replicate (2 * level) ' ')

mutual

/-- `json.dumps(v, indent=2)`, used to serialize the injected context. -/
def Json.dumpIndent : Nat → Json → String
  | _, .null => "null"
  | _, .bool true => "true"
  | _, .bool false => "false"
  | _, .int n => toString n
  | _, .str s => String.mk [quoteC] ++ jsonEscape s ++ String.mk [quoteC]
  | _, .arr [] => "[]"
  | level, .arr (x :: xs) =>
    "[\n" ++ Json.dumpIndentList (level + 1) (x :: xs) ++ "\n" ++ jsonIndent level ++ "]"
  | _, .obj [] => lbrace ++ rbrace
  | level, .obj (kv :: kvs) =>
    lbrace ++ "\n" ++ Json.dumpIndentObj (level + 1) (kv :: kvs) ++ "\n"
      ++ jsonIndent level ++ rbrace

def Json.dumpIndentList : Nat → List Json → String
  | _, [] => ""
  | level, [x] => jsonIndent level ++ Json.dumpIndent level x
  | level, x :: y :: rest =>
    jsonIndent level ++ Json.dumpIndent level x ++ ",\n"
      ++ Json.dumpIndentList level (y :: rest)

def Json.dumpIndentObj : Nat → List (String × Json) → String
  | _, [] => ""
  | level, [(k, v)] =>
    jsonIndent level ++ String.mk [quoteC] ++ jsonEscape k ++ String.mk [quoteC]
      ++ ": " ++ Json.dumpIndent level v
  | level, (k, v) :: y :: rest =>
    jsonIndent level ++ String.mk [quoteC] ++ jsonEscape k ++ String.mk [quoteC]
      ++ ": " ++ Json.dumpIndent level v ++ ",\n" ++ Json.dumpIndentObj level (y :: rest)

end

/-- Python `str(v)` for the hashable JSON values (the only ones that reach
the string interpolations of the source). -/
def pyStrOfJson : Json → String
  | .null => "None"
  | .bool true => "True"
  | .bool false => "False"
  | .int n => toString n
  | .str s => s
  | v => Json.dump v

/-! ## JSON decoding (`json.loads`) -/

/-- Whitespace skipped by the JSON lexer. -/
def isJsonWs (c : Char) : Bool :=
  c = ' ' || c = '\t' || c = '\n' || c = '\r'

def skipJsonWs (l : List Char) : List Char :=
  l.dropWhile isJsonWs

/-- Decode one escape character of a JSON string literal. -/
def jsonUnescapeChar (c : Char) : Option Char :=
  if c = quoteC then some quoteC
  else if c = backslashC then some backslashC
  else if c = '/' then some '/'
  else if c = 'n' then some '\n'
  else if c = 't' then some '\t'
  else if c = 'r' then some '\r'
  else if c = 'b' then some (Char.ofNat 8)
  else if c = 'f' then some (Char.ofNat 12)
  else none

/-- Decode a JSON string body (after the opening quote), returning the
decoded characters and the remainder after the closing quote.  The fuel
argument (instantiated with the list length) keeps the recursion
structural. -/
def parseStringBodyF : Nat → List Char → Option (List Char × List Char)
  | _, [] => none
  | 0, _ => none
  | fuel + 1, c :: rest =>
    if c = quoteC then some ([], rest)
    else if c = backslashC then
      match rest with
      | [] => none
      | e :: rest2 =>
        match jsonUnescapeChar e with
        | some c' => (parseStringBodyF fuel rest2).map (fun p => (c' :: p.1, p.2))
        | none => none
    else (parseStringBodyF fuel rest).map (fun p => (c :: p.1, p.2))

/-- `parseStringBodyF` with enough fuel for its input. -/
def parseStringBody (l : List Char) : Option (List Char × List Char) :=
  parseStringBodyF l.length l

/-- Value of a nonempty digit string. -/
def digitsToNat (ds : List Char) : Nat :=
  ds.foldl (fun n c => n * 10 + (c.toNat - 48)) 0

/-- Decode a JSON integer starting at character `c` (a digit or minus). -/
def parseIntFrom (c : Char) (rest : List Char) : Option (Json × List Char) :=
  if c = '-' then
    let ds := rest.takeWhile Char.isDigit
    let rem := rest.dropWhile Char.isDigit
    if ds = [] then none else some (Json.int (-(digitsToNat ds : Int)), rem)
  else
    let ds := (c :: rest).takeWhile Char.isDigit
    let rem := (c :: rest).dropWhile Char.isDigit
    some (Json.int (digitsToNat ds : Int), rem)

mutual

/-- Recursive-descent decoder for the JSON subset (fuel-indexed). -/
def parseValue : Nat → List Char → Option (Json × List Char)
  | 0, _ => none
  | fuel + 1, l =>
    match skipJsonWs l with
    | [] => none
    | c :: rest =>
      if c = quoteC then
        (parseStringBody rest).map (fun p => (Json.str (String.mk p.1), p.2))
      else if c = lbraceC then
        match skipJsonWs rest with
        | c' :: rest' =>
          if c' = rbraceC then some (Json.obj [], rest')
          else parseMembers fuel [] (c' :: rest')
        | [] => none
      else if c = '[' then
        match skipJsonWs rest with
        | c' :: rest' =>
          if c' = ']' then some (Json.arr [], rest')
          else parseElems fuel [] (c' :: rest')
        | [] => none
      else if c = 'n' then
        if listIsPrefix ['u', 'l', 'l'] rest then some (Json.null, rest.drop 3) else none
      else if c = 't' then
        if listIsPrefix ['r', 'u', 'e'] rest then some (Json.bool true, rest.drop 3) else none
      else if c = 'f' then
        if listIsPrefix ['a', 'l', 's', 'e'] rest then some (Json.bool false, rest.drop 4)
        else none
      else if c = '-' || c.isDigit then parseIntFrom c rest
      else none

/-- Decode the members of a JSON object (positioned at the start of a key).
Duplicate keys keep the last value, as in Python. -/
def parseMembers : Nat → List (String × Json) → List Char → Option (Json × List Char)
  | 0, _, _ => none
  | fuel + 1, acc, l =>
    match l with
    | [] => none
    | c :: rest =>
      if c = quoteC then
        match parseStringBody rest with
        | none => none
        | some (key, rem) =>
          match skipJsonWs rem with
          | ':' :: rem2 =>
            match parseValue fuel rem2 with
            | none => none
            | some (v, rem3) =>
              let acc' := insertKV acc (String.mk key) v
              match skipJsonWs rem3 with
              | ',' :: rem4 => parseMembers fuel acc' (skipJsonWs rem4)
              | c4 :: rem4 =>
                if c4 = rbraceC then some (Json.obj acc', rem4) else none
              | [] => none
          | _ => none
      else none

/-- Decode the elements of a JSON array (positioned at the first element). -/
def parseElems : Nat → List Json → List Char → Option (Json × List Char)
  | 0, _, _ => none
  | fuel + 1, acc, l =>
    match parseValue fuel l with
    | none => none
    | some (v, rem) =>
      match skipJsonWs rem with
      | ',' :: rem2 => parseElems fuel (acc ++ [v]) (skipJsonWs rem2)
      | ']' :: rem2 => some (Json.arr (acc ++ [v]), rem2)
      | _ => none

end

/-- `json.loads(s)`: decode the whole string to a value, failing (Python:
raising `JSONDecodeError`) on syntax errors or trailing data. -/
def jsonLoads (s : String) : Option Json :=
  match parseValue (s.data.length + 1) s.data with
  | some (v, rest) => if skipJsonWs rest = [] then some v else none
  | none => none

/-! ## BaseAgent.parse_tool_call (src/agents/base_agent.py, lines 55-84) -/

/-- The JSON branch of `parse_tool_call`: if the stripped text starts with
a brace and ends with one, try `json.loads` and require both the `tool` and
`arguments` keys; otherwise (or on decode failure) yield nothing and fall
through.  `text` is assumed already stripped by the caller. -/
def jsonToolBranch (text : String) : Option (Json × Json) :=
  if pyStartsWith text lbrace && pyEndsWith text rbrace then
    match jsonLoads text with
    | some (Json.obj kvs) =>
      match lookupKV kvs "tool", lookupKV kvs "arguments" with
      | some t, some a => some (t, a)
      | _, _ => none
    | _ => none
  else none

/-- The secondary heuristic of `parse_tool_call`: parse `name(k=v, ...)` by
splitting on the first parenthesis pair; values are stripped of surrounding
quote characters.  `text` is assumed stripped and to contain both `(` and
`)`. -/
def callPatternBranch (text : String) : Json × Json :=
  let toolName := pyStrip (match pySplit text "(" with | [] => "" | x :: _ => x)
  let afterParen := match pySplit text "(" with
    | _ :: y :: _ => y
    | _ => ""
  let argsStr := match pySplit afterParen ")" with | [] => "" | x :: _ => x
  let args :=
    if argsStr = "" then ([] : List (String × Json))
    else
      (pySplit argsStr ",").foldl
        (fun acc pair =>
          if pyContains pair "=" then
            let kv := pySplitOnce pair "="
            insertKV acc (pyStrip kv.1) (Json.str (pyStripChars [quoteC, squoteC] (pyStrip kv.2)))
          else acc)
        []
  (Json.str toolName, Json.obj args)

/-- `BaseAgent.parse_tool_call`: try the JSON object branch, then the
call-pattern heuristic, else `None`.  Total: the Python function catches
every exception of its two branches. -/
def parse_tool_call (text : String) : Option (Json × Json) :=
  let text := pyStrip text
  match jsonToolBranch text with
  | some r => some r
  | none =>
    if pyContains text "(" && pyContains text ")" then
      some (callPatternBranch text)
    else none

/-! ## BaseAgent.execute_tool (src/agents/base_agent.py, lines 86-100) -/

/-- A registered tool: its description and its underlying function, which
receives the splatted arguments object and either returns a value or raises
(`Except.error` is a raised exception's message). -/
structure ToolEntry where
  description : String
  func : Json → Except String Json

/-- The `get_available_tools()` dict of an agent. -/
abbrev ToolRegistry := List (String × ToolEntry)

/-- A Python error-result object. -/
def errObj (msg : String) : Json :=
  Json.obj [("error", Json.str msg)]

/-- `BaseAgent.execute_tool` for a string tool name: unknown names give a
not-found error result and a raising tool function is caught and converted
to an error result, so the function is total (never propagates). -/
def execute_tool (tools : ToolRegistry) (toolName : String) (arguments : Json) : Json :=
  match lookupKV tools toolName with
  | none => errObj ("Tool " ++ squote ++ toolName ++ squote ++ " not found")
  | some entry =>
    match entry.func arguments with
    | .ok r => r
    | .error e => errObj e

/-- `execute_tool` as invoked from `think`, where the parsed tool name is an
arbitrary decoded value: the membership test `tool_name not in tools`
hashes the name first, so an unhashable name (a decoded list or dict)
raises `TypeError` before the `try` block can catch anything; that raise is
the `Except.error` case.  Hashable non-string names are simply not keys of
the string-keyed registry. -/
def executeToolDyn (tools : ToolRegistry) (name : Json) (arguments : Json) :
    Except String Json :=
  match name with
  | Json.obj _ => Except.error ("unhashable type: " ++ squote ++ "dict" ++ squote)
  | Json.arr _ => Except.error ("unhashable type: " ++ squote ++ "list" ++ squote)
  | Json.str s => Except.ok (execute_tool tools s arguments)
  | other =>
    Except.ok (errObj ("Tool " ++ squote ++ pyStrOfJson other ++ squote ++ " not found"))

/-! ## BaseAgent.think (src/agents/base_agent.py, lines 102-153) -/

/-- A chat message. -/
structure Message where
  role : String
  content : String
deriving DecidableEq

/-- The model backend as seen by one `think` call: a pure function from the
message sequence to the reply text.  `call_llm` catches its own exceptions
and returns an inline error string, so the oracle is total. -/
abbrev LlmOracle := List Message → String

/-- What a `think` call produces: the returned text (or a propagated
exception), the updated `conversation_history`, and the number of model
calls made (ghost instrumentation for the iteration-bound claims). -/
structure ThinkResult where
  result : Except String String
  history : List Message
  llmCalls : Nat

/-- The history window: `if len > 10: keep the last 10` (line 147). -/
def truncHistory (h : List Message) : List Message :=
  if h.length > 10 then h.drop (h.length - 10) else h

/-- The fixed iteration-limit fallback text (line 153). -/
def reasoningLimitMsg : String :=
  "I" ++ squote ++ "ve reached my reasoning limit. Let me summarize what I found so far..."

/-- The iterative reasoning loop of `think` (lines 122-151), with the
remaining iteration budget as fuel. -/
def thinkLoop (oracle : LlmOracle) (tools : ToolRegistry) (history0 : List Message)
    (userMsg : String) (messages : List Message) (calls : Nat) :
    Nat → ThinkResult
  | 0 => ⟨Except.ok reasoningLimitMsg, history0, calls⟩
  | fuel + 1 =>
    let response := oracle messages
    match parse_tool_call response with
    | some (name, args) =>
      match executeToolDyn tools name args with
      | Except.error e => ⟨Except.error e, history0, calls + 1⟩
      | Except.ok toolResult =>
        thinkLoop oracle tools history0 userMsg
          (messages ++ [⟨"assistant", response⟩,
            ⟨"user", "Tool result: " ++ Json.dump toolResult⟩])
          (calls + 1) fuel
    | none =>
      ⟨Except.ok response,
        truncHistory (history0 ++ [⟨"user", userMsg⟩, ⟨"assistant", response⟩]),
        calls + 1⟩

/-- `BaseAgent.think`: build the message sequence (system prompt, prior
history, user message with the serialized context appended when the context
dict is truthy) and run the reasoning loop with `max_iterations = 5`. -/
def think (oracle : LlmOracle) (tools : ToolRegistry) (systemPrompt : String)
    (history : List Message) (userMessage : String) (context : Option Json) :
    ThinkResult :=
  let truthy := match context with
    | some c => c.pyTruthy
    | none => false
  let userMsg :=
    match context with
    | some c =>
      if truthy then userMessage ++ "\n\nContext:\n" ++ Json.dumpIndent 0 c
      else userMessage
    | none => userMessage
  let messages := ⟨"system", systemPrompt⟩ :: (history ++ [⟨"user", userMsg⟩])
  thinkLoop oracle tools history userMsg messages 0 5

/-! ## PlannerAgent.create_plan (src/agents/planner.py, lines 57-102) -/

/-- Error text standing in for the message of the exception raised by the
embedded `json.loads` (the decoder reports no structured reason). -/
def jsonDecodeErrorMsg : String := "Invalid JSON"

/-- The degraded single-step plan of the `except` branch (lines 85-96). -/
def fallbackPlan (task : String) : Json :=
  Json.obj
    [("steps", Json.arr
        [Json.obj
          [("id", Json.int 1),
           ("agent", Json.str "researcher"),
           ("action", Json.str task),
           ("dependencies", Json.arr []),
           ("expected_output", Json.str "Results")]]),
     ("rationale", Json.str ("Fallback plan due to parsing error: " ++ jsonDecodeErrorMsg))]

/-- The empty plan with an `error` key returned when the reply holds no
first-brace-to-last-brace span (lines 98-102). -/
def errorPlan : Json :=
  Json.obj
    [("steps", Json.arr []),
     ("rationale", Json.str "Could not create plan"),
     ("error", Json.str "Failed to parse plan from response")]

/-- The `response[start:end]` span between the first `{` and the last `}`
of the reply, when `start >= 0 and end > start` (lines 77-80). -/
def braceSpan (response : String) : Option String :=
  let start := pyFindChar response lbraceC
  let stop := pyRFindChar response rbraceC + 1
  if 0 ≤ start ∧ start < stop then
    some (pySlice response start.toNat stop.toNat)
  else none

/-- The parsing stage of `PlannerAgent.create_plan`, applied to the reply
text that `self.think(prompt, context)` returned: decode the brace span if
there is one, fall back to the degraded single-step plan when decoding
raises, and return the empty `error` plan when there is no span. -/
def create_plan (reply : String) (task : String) : Json :=
  match braceSpan reply with
  | some planJson =>
    match jsonLoads planJson with
    | some plan => plan
    | none => fallbackPlan task
  | none => errorPlan

/-! ## Orchestrator (src/agents/orchestrator.py)

The plan argument of `process_task` stands for the dict returned by
`self.planner.create_plan(...)`, read through the plan wire format
(integer `id`, string `agent`, string `action`, integer-array
`dependencies`); the optional `error` field models the `"error" in plan`
check.  The worker agents are the values of `self.agents`, abstracted to
their `think` entry points (which may raise). -/

structure Step where
  id : Int
  agent : String
  action : String
  dependencies : List Int

structure Plan where
  steps : List Step
  rationale : String
  error : Option String

/-- One entry of the `results` dict. Missing dict keys are `none`. -/
structure StepResult where
  status : String
  output : Option String
  error : Option String
  agent : Option String
deriving DecidableEq

abbrev Results := List (Int × StepResult)

/-- A worker agent as the orchestrator sees it: `think(action, context)`
returning the reply text or raising. -/
abbrev AgentFn := String → Json → Except String String

abbrev AgentRegistry := List (String × AgentFn)

/-- Execution state threaded through the step loop: the `results` dict,
`self.execution_log` (step id, agent, action, output of successful steps),
and a ghost trace of the `agent.think` invocations made. -/
structure ExecState where
  results : Results
  log : List (Int × String × String × String)
  invoked : List (Int × String)

/-- One iteration of the step loop of `process_task` (lines 55-113).  The
dependency check mirrors the source faithfully: its `continue` sits in the
inner `for dep_id in dependencies` loop, so after recording the
dependency-not-met failure the code still falls through and executes the
step. -/
def processStep (agents : AgentRegistry) (context : List (String × Json))
    (st : ExecState) (step : Step) : ExecState :=
  let results := step.dependencies.foldl
    (fun rs dep =>
      if hasKV rs dep then rs
      else insertKV rs step.id
        ⟨"failed", none, some ("Dependency " ++ toString dep ++ " not met"), none⟩)
    st.results
  match lookupKV agents step.agent with
  | none =>
    ⟨insertKV results step.id
        ⟨"failed", none, some ("Unknown agent: " ++ step.agent), none⟩,
      st.log, st.invoked⟩
  | some agentFn =>
    let stepCtx := step.dependencies.foldl
      (fun c dep =>
        insertKV c ("step_" ++ toString dep ++ "_result")
          (match lookupKV results dep with
           | some r =>
             match r.output with
             | some o => Json.str o
             | none => Json.null
           | none => Json.null))
      context
    let invoked := st.invoked ++ [(step.id, step.agent)]
    match agentFn step.action (Json.obj stepCtx) with
    | Except.ok out =>
      ⟨insertKV results step.id ⟨"success", some out, none, some step.agent⟩,
        st.log ++ [(step.id, step.agent, step.action, out)], invoked⟩
    | Except.error e =>
      ⟨insertKV results step.id ⟨"error", none, some e, some step.agent⟩,
        st.log, invoked⟩

/-- `sorted(results.keys())`. -/
def sortedKeys (results : Results) : List Int :=
  List.insertionSort (· ≤ ·) (results.map Prod.fst)

/-- The outputs of the success-status steps collected in ascending step-id
order (lines 137-141); a success record with no `output` key contributes
`""` via `result.get("output", "")`. -/
def successOutputs (results : Results) : List String :=
  (sortedKeys results).filterMap
    (fun k =>
      match lookupKV results k with
      | some r => if r.status = "success" then some (r.output.getD "") else none
      | none => none)

/-- The fixed message returned when no step succeeded (line 144). -/
def noSuccessMsg : String :=
  "I was unable to complete the task successfully. Please check the execution logs for details."

/-- The markdown block appended for the `p.1`-th (0-based) collected output
in the multiple-outputs branch of `_synthesize_results` (lines 152-156):
a heading `## Step i: Agent` looked up by list position in the plan,
followed by the output. -/
def stepBlock (plan : Plan) (p : Nat × String) : String :=
  let i := p.1 + 1
  let agentName :=
    match plan.steps.get? (i - 1) with
    | some st => st.agent
    | none => "agent"
  "## Step " ++ toString i ++ ": " ++ pyTitle agentName ++ "\n\n" ++ p.2 ++ "\n\n"

/-- `Orchestrator._synthesize_results` (lines 134-158). -/
def synthesize_results (query : String) (plan : Plan) (results : Results) : String :=
  match successOutputs results with
  | [] => noSuccessMsg
  | [o] => o
  | outputs =>
    (outputs.enum).foldl (fun acc p => acc ++ stepBlock plan p)
      ("# Results for: " ++ query ++ "\n\n")

/-- What `process_task` returns; the `error` return (lines 44-48) carries
no `results` or `final_output` keys, hence the options. -/
structure OrchResult where
  status : String
  error : Option String
  results : Option Results
  finalOutput : Option String
  log : List (Int × String × String × String)
  invoked : List (Int × String)

/-- `Orchestrator.process_task` (lines 30-132) given the created plan. -/
def process_task (agents : AgentRegistry) (plan : Plan)
    (context : List (String × Json)) (query : String) : OrchResult :=
  match plan.error with
  | some e => ⟨"error", some e, none, none, [], []⟩
  | none =>
    let final := plan.steps.foldl (processStep agents context) ⟨[], [], []⟩
    ⟨"success", none, some final.results,
      some (synthesize_results query plan final.results), final.log, final.invoked⟩

/-! ## EnhancedAgent (src/enhanced-agent.py)

`execute_tool_with_retry` is embedded with the tool function given as a
map from the attempt number to its outcome (the external failures the
retry loop exists for are attempt-dependent), together with the declared
parameter annotations of its signature.  The `time.sleep` calls are
recorded as a ghost list of sleep durations in milliseconds. -/

inductive PyType where
  | tint
  | tfloat
  | tbool
  | tother
deriving DecidableEq

inductive PyVal where
  | vnone
  | vbool (b : Bool)
  | vint (n : Int)
  | vfloat (q : Rat)
  | vstr (s : String)
  | vlist (xs : List PyVal)
  | vdict (kvs : List (String × PyVal))

/-- Python `isinstance(v, int)` (booleans are ints in Python). -/
def pyIsInstInt : PyVal → Bool
  | .vint _ => true
  | .vbool _ => true
  | _ => false

/-- Python `isinstance(v, float)`. -/
def pyIsInstFloat : PyVal → Bool
  | .vfloat _ => true
  | _ => false

/-- Python `isinstance(v, bool)`. -/
def pyIsInstBool : PyVal → Bool
  | .vbool _ => true
  | _ => false

/-- Python `str(v)` for the values the coercion code feeds to it. -/
def pyStr : PyVal → String
  | .vnone => "None"
  | .vbool true => "True"
  | .vbool false => "False"
  | .vint n => toString n
  | .vfloat q => toString q
  | .vstr s => s
  | .vlist _ => "[...]"
  | .vdict _ => lbrace ++ "..." ++ rbrace

/-- Parse the digits of a Python `int()` literal. -/
def pyDigits (l : List Char) (orig : String) : Except String Int :=
  if l ≠ [] && l.all Char.isDigit then Except.ok (digitsToNat l : Int)
  else
    Except.error ("invalid literal for int() with base 10: " ++ squote ++ orig ++ squote)

/-- Python `int(s)`: surrounding whitespace, an optional sign, digits. -/
def pyIntOfString (s : String) : Except String Int :=
  match (pyStrip s).data with
  | [] => Except.error ("invalid literal for int() with base 10: " ++ squote ++ s ++ squote)
  | c :: rest =>
    if c = '-' then (pyDigits rest s).map (fun n => -n)
    else if c = '+' then pyDigits rest s
    else pyDigits (c :: rest) s

/-- Python `int(v)` on a non-int value. -/
def pyToInt : PyVal → Except String Int
  | .vint n => Except.ok n
  | .vbool b => Except.ok (if b then 1 else 0)
  | .vfloat q => Except.ok (Int.tdiv q.num (q.den : Int))
  | .vstr s => pyIntOfString s
  | v =>
    Except.error ("int() argument must be a string, a bytes-like object or a real number, not "
      ++ squote ++ pyStr v ++ squote)

/-- Python `float(s)`, for the subset `[sign] digits [. digits]`. -/
def pyFloatOfString (s : String) : Except String Rat :=
  let err := Except.error ("could not convert string to float: " ++ squote ++ s ++ squote)
  let core : List Char → Except String Rat := fun l =>
    let intPart := l.takeWhile Char.isDigit
    let rest := l.dropWhile Char.isDigit
    match rest with
    | [] => if intPart = [] then err else Except.ok ((digitsToNat intPart : Int) : Rat)
    | '.' :: frac =>
      if frac.all Char.isDigit && (intPart ≠ [] || frac ≠ []) then
        Except.ok ((digitsToNat intPart : Int) +
          (digitsToNat frac : Int) / ((10 : Rat) ^ frac.length))
      else err
    | _ => err
  match (pyStrip s).data with
  | [] => err
  | c :: rest =>
    if c = '-' then (core rest).map (fun q => -q)
    else if c = '+' then core rest
    else core (c :: rest)

/-- Python `float(v)` on a non-float value. -/
def pyToFloat : PyVal → Except String Rat
  | .vfloat q => Except.ok q
  | .vint n => Except.ok (n : Rat)
  | .vbool b => Except.ok (if b then 1 else 0)
  | .vstr s => pyFloatOfString s
  | v =>
    Except.error ("float() argument must be a string or a real number, not "
      ++ squote ++ pyStr v ++ squote)

/-- The type-conversion loop of `execute_tool_with_retry` (lines 228-246):
each argument named in the signature is coerced to the declared annotation
(int, float, or permissive bool), other arguments pass through.  A
conversion error is a raise inside the `try`, so it is classified like any
other attempt failure. -/
def convert_args (sig : List (String × PyType)) (args : List (String × PyVal)) :
    Except String (List (String × PyVal)) :=
  args.foldlM
    (fun acc p =>
      match lookupKV sig p.1 with
      | some PyType.tint =>
        if pyIsInstInt p.2 then Except.ok (insertKV acc p.1 p.2)
        else (pyToInt p.2).map (fun n => insertKV acc p.1 (PyVal.vint n))
      | some PyType.tfloat =>
        if pyIsInstFloat p.2 then Except.ok (insertKV acc p.1 p.2)
        else (pyToFloat p.2).map (fun q => insertKV acc p.1 (PyVal.vfloat q))
      | some PyType.tbool =>
        if pyIsInstBool p.2 then Except.ok (insertKV acc p.1 p.2)
        else
          Except.ok (insertKV acc p.1
            (PyVal.vbool
              (pyLower (pyStr p.2) = "true" || pyLower (pyStr p.2) = "1"
                || pyLower (pyStr p.2) = "yes")))
      | some PyType.tother => Except.ok (insertKV acc p.1 p.2)
      | none => Except.ok (insertKV acc p.1 p.2))
    []

/-- `EnhancedAgent._classify_error` (lines 292-305). -/
def classify_error (e : String) : String :=
  let s := pyLower e
  if pyContains s "timeout" || pyContains s "connection" then "NETWORK_ERROR"
  else if pyContains s "permission" || pyContains s "access" then "PERMISSION_ERROR"
  else if pyContains s "argument" || pyContains s "parameter" then "INVALID_INPUT"
  else if pyContains s "not found" || pyContains s "does not exist" then "NOT_FOUND"
  else "LOGIC_ERROR"

/-- `EnhancedAgent._should_retry` (lines 307-310). -/
def should_retry (errorType : String) : Bool :=
  errorType = "NETWORK_ERROR" || errorType = "TIMEOUT_ERROR"

/-- One record of the `attempts` list (timing omitted: wall-clock). -/
structure AttemptRec where
  attempt : Nat
  status : String
  error : Option String
  errorType : Option String
deriving DecidableEq

/-- The metrics dict of `execute_tool_with_retry`, plus the ghost trace of
`time.sleep` durations in milliseconds. -/
structure RetryMetrics where
  attempts : List AttemptRec
  totalAttempts : Nat
  finalStatus : String
  sleptMs : List Nat
deriving DecidableEq

/-- The attempt loop of `execute_tool_with_retry` (lines 224-290), with the
remaining attempts as fuel. -/
def retryAux (sig : List (String × PyType)) (args : List (String × PyVal))
    (func : Nat → List (String × PyVal) → Except String PyVal) (maxRetries : Nat)
    (acc : List AttemptRec) (slept : List Nat) (attempt : Nat) :
    Nat → PyVal × RetryMetrics
  | 0 =>
    (PyVal.vdict [("error", PyVal.vstr "Max retries exceeded")],
      ⟨acc, maxRetries, "failed", slept⟩)
  | fuel + 1 =>
    let outcome : Except String PyVal :=
      match convert_args sig args with
      | Except.error e => Except.error e
      | Except.ok cargs => func attempt cargs
    match outcome with
    | Except.ok result =>
      (result, ⟨acc ++ [⟨attempt, "success", none, none⟩], attempt, "success", slept⟩)
    | Except.error e =>
      let errorType := classify_error e
      let acc' := acc ++ [⟨attempt, "failed", some e, some errorType⟩]
      if !should_retry errorType || attempt = maxRetries then
        (PyVal.vdict [("error", PyVal.vstr e), ("error_type", PyVal.vstr errorType)],
          ⟨acc', attempt, "failed", slept⟩)
      else
        retryAux sig args func maxRetries acc' (slept ++ [100 * 2 ^ (attempt - 1)])
          (attempt + 1) fuel

/-- `EnhancedAgent.execute_tool_with_retry` (lines 217-290). -/
def execute_tool_with_retry (sig : List (String × PyType))
    (args : List (String × PyVal))
    (func : Nat → List (String × PyVal) → Except String PyVal)
    (maxRetries : Nat) : PyVal × RetryMetrics :=
  retryAux sig args func maxRetries [] [] 1 maxRetries

/-! ## Concrete instances used by the theorems below -/

/-- A registry with one worker whose `think` returns `"out"`. -/
def c1Agents : AgentRegistry := [("researcher", fun _ _ => Except.ok "out")]

/-- A plan whose only step depends on an id that never appears. -/
def c1Plan : Plan := ⟨[⟨2, "researcher", "act", [1]⟩], "planned", none⟩

/-- An echo capability registered under the researcher's tool name; the real
`web_search(query: str, max_results: int = 5)` declares `max_results` as an
integer, and the echo body makes the received arguments observable. -/
def c3Registry : ToolRegistry :=
  [("web_search", ⟨"Search the web using DuckDuckGo", fun a => Except.ok a⟩)]

/-- The plan of the synthesis example. -/
def c4Plan : Plan :=
  ⟨[⟨1, "researcher", "a1", []⟩, ⟨2, "analyst", "a2", []⟩, ⟨3, "writer", "a3", []⟩],
    "r", none⟩

/-- The results map of the synthesis example: two successes around a
failure. -/
def c4Results : Results :=
  [(1, ⟨"success", some "A", none, some "researcher"⟩),
   (2, ⟨"failed", none, some "boom", none⟩),
   (3, ⟨"success", some "B", none, some "writer"⟩)]

/-- A registry with one tool that raises on `null` and answers otherwise. -/
def c7Registry : ToolRegistry :=
  [("t", ⟨"test tool",
    fun a => match a with
      | Json.null => Except.error "boom"
      | _ => Except.ok (Json.str "ok")⟩)]

/-- A model that always replies with a decodable capability call whose tool
name is a dict. -/
def dictNameOracle : LlmOracle :=
  fun _ => "\x7b\"tool\": \x7b\x7d, \"arguments\": \x7b\x7d\x7d"

/-- A model that always replies with a well-formed capability call. -/
def loopOracle : LlmOracle := fun _ => "search(q=1)"

/-- One `think` call as the history-bound claim quantifies over it. -/
structure CallSpec where
  oracle : LlmOracle
  tools : ToolRegistry
  sys : String
  msg : String
  ctx : Option Json

/-- Fold a sequence of `think` calls over the conversation history. -/
def runThinks (calls : List CallSpec) (h : List Message) : List Message :=
  calls.foldl (fun h c => (think c.oracle c.tools c.sys h c.msg c.ctx).history) h

/-- A tool function whose every attempt fails with a network-classified
error. -/
def netFailFunc : Nat → List (String × PyVal) → Except String PyVal :=
  fun _ _ => Except.error "connection refused"

/-- A tool function whose every attempt fails with a permission-classified
error. -/
def permFailFunc : Nat → List (String × PyVal) → Except String PyVal :=
  fun _ _ => Except.error "permission denied"

/-- A tool function that times out once and then succeeds. -/
def flakyFunc : Nat → List (String × PyVal) → Except String PyVal :=
  fun n _ => if n = 1 then Except.error "connection timeout" else Except.ok (PyVal.vstr "ok")

/-- A tool function that echoes its (converted) arguments. -/
def echoFunc : Nat → List (String × PyVal) → Except String PyVal :=
  fun _ cargs => Except.ok (PyVal.vdict cargs)

/-- The signature of a capability declaring `max_results` as `int`. -/
def intParamSig : List (String × PyType) := [("max_results", PyType.tint)]

/-- The loosely-typed arguments `\x7b"max_results": "5"\x7d`. -/
def strFiveArgs : List (String × PyVal) := [("max_results", PyVal.vstr "5")]

/-! ## Helper lemmas -/

theorem lookupKV_eq_some_of_mem {α β : Type} [DecidableEq α]
    {l : List (α × β)} {k : α} {v : β}
    (hnd : (l.map Prod.fst).Nodup) (hm : (k, v) ∈ l) :
    lookupKV l k = some v := by
  induction l with
  | nil => cases hm
  | cons p rest ih =>
    obtain ⟨k', v'⟩ := p
    simp only [List.map_cons, List.nodup_cons] at hnd
    rcases List.mem_cons.mp hm with h | h
    · obtain ⟨rfl, rfl⟩ := Prod.mk.injEq .. ▸ h
      simp [lookupKV]
    · have hk : k' ≠ k := by
        rintro rfl
        exact hnd.1 (List.mem_map.mpr ⟨(k', v), h, rfl⟩)
      simp only [lookupKV, if_neg hk]
      exact ih hnd.2 h

theorem mem_sortedKeys_of_mem {results : Results} {k : Int} {r : StepResult}
    (hm : (k, r) ∈ results) : k ∈ sortedKeys results := by
  unfold sortedKeys
  exact (List.perm_insertionSort _ _).mem_iff.mpr (List.mem_map.mpr ⟨(k, r), hm, rfl⟩)

theorem mem_successOutputs {results : Results} {k : Int} {r : StepResult} {o : String}
    (hnd : (results.map Prod.fst).Nodup) (hm : (k, r) ∈ results)
    (hs : r.status = "success") (ho : r.output = some o) :
    o ∈ successOutputs results := by
  unfold successOutputs
  refine List.mem_filterMap.mpr ⟨k, mem_sortedKeys_of_mem hm, ?_⟩
  rw [lookupKV_eq_some_of_mem hnd hm]
  simp [hs, ho]

theorem infix_foldl_stepBlock (plan : Plan) :
    ∀ (l : List (Nat × String)) (acc : String),
      acc.data <:+: ((l.foldl (fun a p => a ++ stepBlock plan p) acc).data) := by
  intro l
  induction l with
  | nil => intro acc; exact List.infix_refl _
  | cons p rest ih =>
    intro acc
    simp only [List.foldl_cons]
    refine List.IsInfix.trans ?_ (ih (acc ++ stepBlock plan p))
    simp only [String.data_append]
    exact ⟨[], stepBlock plan p |>.data, by simp⟩

theorem output_infix_foldl_stepBlock (plan : Plan) :
    ∀ (l : List (Nat × String)) (acc : String) (p : Nat × String), p ∈ l →
      p.2.data <:+: ((l.foldl (fun a q => a ++ stepBlock plan q) acc).data) := by
  intro l
  induction l with
  | nil => intro acc p hp; cases hp
  | cons q rest ih =>
    intro acc p hp
    simp only [List.foldl_cons]
    rcases List.mem_cons.mp hp with h | h
    · subst h
      refine List.IsInfix.trans ?_ (infix_foldl_stepBlock plan rest (acc ++ stepBlock plan p))
      simp only [stepBlock, String.data_append]
      exact ⟨acc.data ++ ("## Step " ++ toString (p.1 + 1) ++ ": "
        ++ pyTitle (match plan.steps.get? (p.1 + 1 - 1) with
                    | some st => st.agent
                    | none => "agent")).data ++ "\n\n".data, "\n\n".data, by simp⟩
    · exact ih (acc ++ stepBlock plan q) p h

theorem mem_enum_snd {α : Type} {x : α} {l : List α} (h : x ∈ l) :
    ∃ i, (i, x) ∈ l.enum := by
  obtain ⟨i, hi⟩ := List.mem_iff_get.mp h
  refine ⟨i, List.mem_enum_iff_getElem?.mpr ?_⟩
  simpa using hi

theorem executeToolDyn_ok_of_hashable (tools : ToolRegistry) (name args : Json)
    (h : name.isHashable = true) : ∃ v, executeToolDyn tools name args = Except.ok v := by
  cases name <;> simp_all [executeToolDyn, Json.isHashable]

theorem truncHistory_length_le {h : List Message} (hl : h.length ≤ 12) :
    (truncHistory h).length ≤ 10 := by
  unfold truncHistory
  split
  · simp only [List.length_drop]
    omega
  · omega

theorem thinkLoop_history_cases (oracle : LlmOracle) (tools : ToolRegistry)
    (h0 : List Message) (u : String) :
    ∀ (fuel : Nat) (messages : List Message) (calls : Nat),
      (thinkLoop oracle tools h0 u messages calls fuel).history = h0 ∨
      ∃ resp, (thinkLoop oracle tools h0 u messages calls fuel).history
        = truncHistory (h0 ++ [⟨"user", u⟩, ⟨"assistant", resp⟩]) := by
  intro fuel
  induction fuel with
  | zero => intro messages calls; left; rfl
  | succ fuel ih =>
    intro messages calls
    rcases hpc : parse_tool_call (oracle messages) with _ | ⟨name, args⟩
    · right
      exact ⟨oracle messages, by simp only [thinkLoop, hpc]⟩
    · rcases hex : executeToolDyn tools name args with e | v
      · left
        simp only [thinkLoop, hpc, hex]
      · simp only [thinkLoop, hpc, hex]
        exact ih _ _

theorem thinkLoop_calls_le (oracle : LlmOracle) (tools : ToolRegistry)
    (h0 : List Message) (u : String) :
    ∀ (fuel : Nat) (messages : List Message) (calls : Nat),
      (thinkLoop oracle tools h0 u messages calls fuel).llmCalls ≤ calls + fuel := by
  intro fuel
  induction fuel with
  | zero => intro messages calls; simp [thinkLoop]
  | succ fuel ih =>
    intro messages calls
    rcases hpc : parse_tool_call (oracle messages) with _ | ⟨name, args⟩
    · simp only [thinkLoop, hpc]
      omega
    · rcases hex : executeToolDyn tools name args with e | v
      · simp only [thinkLoop, hpc, hex]
        omega
      · simp only [thinkLoop, hpc, hex]
        calc (thinkLoop oracle tools h0 u _ (calls + 1) fuel).llmCalls
            ≤ calls + 1 + fuel := ih _ _
          _ ≤ calls + (fuel + 1) := by omega

theorem thinkLoop_fallback (oracle : LlmOracle) (tools : ToolRegistry)
    (h0 : List Message) (u : String)
    (H : ∀ ms, ∃ name args, parse_tool_call (oracle ms) = some (name, args)
          ∧ name.isHashable = true) :
    ∀ (fuel : Nat) (messages : List Message) (calls : Nat),
      thinkLoop oracle tools h0 u messages calls fuel
        = ⟨Except.ok reasoningLimitMsg, h0, calls + fuel⟩ := by
  intro fuel
  induction fuel with
  | zero => intro messages calls; rfl
  | succ fuel ih =>
    intro messages calls
    obtain ⟨name, args, hpc, hh⟩ := H messages
    obtain ⟨v, hex⟩ := executeToolDyn_ok_of_hashable tools name args hh
    simp only [thinkLoop, hpc, hex]
    rw [ih _ _]
    congr 1
    omega

theorem think_history_length_le (oracle : LlmOracle) (tools : ToolRegistry)
    (sys : String) (h : List Message) (msg : String) (ctx : Option Json)
    (hl : h.length ≤ 10) :
    (think oracle tools sys h msg ctx).history.length ≤ 10 := by
  simp only [think]
  rcases thinkLoop_history_cases oracle tools h _ 5 _ 0 with heq | ⟨resp, heq⟩
  · rw [heq]; exact hl
  · rw [heq]
    exact truncHistory_length_le (by simp; omega)

theorem runThinks_length_le (calls : List CallSpec) :
    ∀ h : List Message, h.length ≤ 10 → (runThinks calls h).length ≤ 10 := by
  induction calls with
  | nil => intro h hl; exact hl
  | cons c rest ih =>
    intro h hl
    exact ih _ (think_history_length_le c.oracle c.tools c.sys h c.msg c.ctx hl)

/-! ## Claim theorems -/

/-- C10: for every plan that parses without an `error` field,
`Orchestrator.process_task` reports top-level status `"success"`, whatever
the per-step results are — the overall status never reflects per-step
failures. -/
theorem c10_overall_status_success (agents : AgentRegistry) (plan : Plan)
    (context : List (String × Json)) (query : String) (h : plan.error = none) :
    (process_task agents plan context query).status = "success" := by
  simp [process_task, h]

/-- Witness for C10 at a plan whose only step names an unknown worker: the
step's result is `failed`, yet the overall status is `"success"`. -/
theorem c10_overall_status_witness :
    (process_task [] ⟨[⟨1, "x", "a", []⟩], "r", none⟩ [] "q").status = "success"
  ∧ (process_task [] ⟨[⟨1, "x", "a", []⟩], "r", none⟩ [] "q").results
      = some [(1, ⟨"failed", none, some "Unknown agent: x", none⟩)] :=
  ⟨c10_overall_status_success [] ⟨[⟨1, "x", "a", []⟩], "r", none⟩ [] "q" rfl, rfl⟩

/-- C1 (code bug): evaluating `process_task` at a plan whose single step
(id 2) declares the never-satisfied dependency 1.  The `continue` of the
dependency check sits in the inner loop over `dependencies`, so the code
records the dependency-not-met failure, then still invokes the worker's
`think` and overwrites the record with a success — the claim (and the
spec's dependency-gate contract) says the step must not be executed and
the `failed` record must survive. -/
theorem c1_dependency_check_bug_eval :
    (process_task c1Agents c1Plan [] "q").results
      = some [(2, ⟨"success", some "out", none, some "researcher"⟩)]
  ∧ (process_task c1Agents c1Plan [] "q").invoked = [(2, "researcher")] :=
  ⟨rfl, rfl⟩

/-- C7: `BaseAgent.execute_tool` is total (the embedding returns a plain
value, never an exception): an unregistered name yields the not-found error
result, a raising tool function is converted to an `error` result, and a
returning tool function's value is passed through. -/
theorem c7_execute_tool_never_raises (tools : ToolRegistry) (name : String)
    (args : Json) :
    (lookupKV tools name = none →
      execute_tool tools name args
        = errObj ("Tool " ++ squote ++ name ++ squote ++ " not found"))
  ∧ (∀ entry e, lookupKV tools name = some entry → entry.func args = Except.error e →
      execute_tool tools name args = errObj e)
  ∧ (∀ entry v, lookupKV tools name = some entry → entry.func args = Except.ok v →
      execute_tool tools name args = v) := by
  refine ⟨fun h => ?_, fun entry e h1 h2 => ?_, fun entry v h1 h2 => ?_⟩
  · simp [execute_tool, h]
  · simp [execute_tool, h1, h2]
  · simp [execute_tool, h1, h2]

/-- Witness for C7 on a concrete registry: a missing name, a raising tool,
and a succeeding tool. -/
theorem c7_execute_tool_witness :
    execute_tool c7Registry "missing" Json.null
      = errObj ("Tool " ++ squote ++ "missing" ++ squote ++ " not found")
  ∧ execute_tool c7Registry "t" Json.null = errObj "boom"
  ∧ execute_tool c7Registry "t" (Json.int 1) = Json.str "ok" :=
  ⟨(c7_execute_tool_never_raises c7Registry "missing" Json.null).1 rfl,
   (c7_execute_tool_never_raises c7Registry "t" Json.null).2.1 _ "boom" rfl rfl,
   (c7_execute_tool_never_raises c7Registry "t" (Json.int 1)).2.2 _ (Json.str "ok") rfl rfl⟩

/-- C6: starting from an empty conversation history, after any finite
sequence of `think` calls (with any oracles, registries and contexts, hence
any number of capability round-trips inside each call) the history holds at
most 10 messages. -/
theorem c6_history_bounded (calls : List CallSpec) :
    (runThinks calls []).length ≤ 10 :=
  runThinks_length_le calls [] (by simp)

/-- Counterexample to C5 as stated: a model reply that decodes as a
capability call whose `tool` field is a dict.  `parse_tool_call` accepts
it, but `execute_tool`'s membership test `tool_name not in tools` hashes
the name and raises `TypeError: unhashable type: 'dict'`, which `think`
propagates instead of returning the fallback. -/
theorem c5_unhashable_toolname_counterexample :
    parse_tool_call (dictNameOracle []) = some (Json.obj [], Json.obj [])
  ∧ (think dictNameOracle [] "sys" [] "task" none).result
      = Except.error ("unhashable type: " ++ squote ++ "dict" ++ squote)
  ∧ (think dictNameOracle [] "sys" [] "task" none).llmCalls = 1 :=
  ⟨rfl, rfl, rfl⟩

/-- C5 (amended): `think` makes at most `max_iterations = 5` model calls;
and when every reply parses as a capability call whose tool name is
hashable (not a decoded list or dict), `think` returns the fixed
iteration-limit fallback after exactly 5 calls without raising. -/
theorem c5_iteration_bound_amended (oracle : LlmOracle) (tools : ToolRegistry)
    (sys : String) (history : List Message) (msg : String) (ctx : Option Json) :
    (think oracle tools sys history msg ctx).llmCalls ≤ 5
  ∧ ((∀ ms, ∃ name args, parse_tool_call (oracle ms) = some (name, args)
        ∧ name.isHashable = true) →
      (think oracle tools sys history msg ctx).result = Except.ok reasoningLimitMsg
    ∧ (think oracle tools sys history msg ctx).llmCalls = 5) := by
  constructor
  · simp only [think]
    exact thinkLoop_calls_le oracle tools history _ 5 _ 0
  · intro H
    simp only [think]
    rw [thinkLoop_fallback oracle tools history _ H 5 _ 0]
    exact ⟨rfl, rfl⟩

/-- Witness for C5 (amended): a model that always replies with the
well-formed call `search(q=1)` drives `think` to the fallback after
exactly 5 model calls. -/
theorem c5_iteration_bound_witness :
    (think loopOracle [] "sys" [] "task" none).result = Except.ok reasoningLimitMsg
  ∧ (think loopOracle [] "sys" [] "task" none).llmCalls = 5 :=
  (c5_iteration_bound_amended loopOracle [] "sys" [] "task" none).2
    (fun _ => ⟨Json.str "search", Json.obj [("q", Json.str "1")], rfl, rfl⟩)

/-- Counterexample to C9 as stated: a malformed structured object (decoding
fails) that nonetheless contains a parenthesis pair, so `parse_tool_call`
falls through to the call-pattern heuristic and returns a parse instead of
`None`. -/
theorem c9_parser_fallthrough_counterexample :
    jsonLoads "\x7bfoo(b=1)\x7d" = none
  ∧ parse_tool_call "\x7bfoo(b=1)\x7d"
      = some (Json.str "\x7bfoo", Json.obj [("b", Json.str "1")]) :=
  ⟨rfl, rfl⟩

/-- C9 (amended): `parse_tool_call` is total (never raises), and it returns
`None` exactly when the structured-object branch yields no capability call
and the stripped text does not contain both `(` and `)`; when it does, the
call-pattern heuristic always produces a parse. -/
theorem c9_parser_none_characterization (text : String) :
    parse_tool_call text = none ↔
      (jsonToolBranch (pyStrip text) = none
        ∧ ¬(pyContains (pyStrip text) "(" = true ∧ pyContains (pyStrip text) ")" = true)) := by
  rcases h : jsonToolBranch (pyStrip text) with _ | r
  · simp only [parse_tool_call, h]
    by_cases h1 : pyContains (pyStrip text) "(" = true
    · by_cases h2 : pyContains (pyStrip text) ")" = true
      · simp [h1, h2]
      · simp [h1, h2]
    · simp [h1]
  · simp [parse_tool_call, h]

/-- Counterexample to C2 as stated: a model reply that cannot be decoded as
a structured plan because it contains no brace-delimited span.
`create_plan` does not return the degraded single-step plan there: it
returns the empty-steps plan whose `error` field then makes `process_task`
report planning failure. -/
theorem c2_no_brace_reply_counterexample :
    create_plan "I cannot produce a plan." "mytask" = errorPlan
  ∧ errorPlan ≠ fallbackPlan "mytask" :=
  ⟨rfl, fun h => absurd (congrArg Json.dump h) (by decide)⟩

/-- C2 (amended): the parsing stage of `create_plan` is total, and: with no
first-brace-to-last-brace span, it returns the empty-steps plan carrying an
`error` field; with a span that fails to decode, it returns the degraded
single-step plan assigning the whole task verbatim to the researcher with
the rationale recording the parse failure; with a decodable span, it
returns the decoded plan. -/
theorem c2_create_plan_amended (reply task : String) :
    (braceSpan reply = none → create_plan reply task = errorPlan)
  ∧ (∀ s, braceSpan reply = some s → jsonLoads s = none →
      create_plan reply task = fallbackPlan task)
  ∧ (∀ s j, braceSpan reply = some s → jsonLoads s = some j →
      create_plan reply task = j) := by
  refine ⟨fun h => ?_, fun s h1 h2 => ?_, fun s j h1 h2 => ?_⟩
  · simp [create_plan, h]
  · simp [create_plan, h1, h2]
  · simp [create_plan, h1, h2]

/-- Witness for C2 (amended) on concrete replies: one without braces, one
whose brace span is not decodable JSON. -/
theorem c2_create_plan_witness :
    create_plan "no plan here." "t" = errorPlan
  ∧ create_plan ("x" ++ lbrace ++ "]y" ++ rbrace) "t" = fallbackPlan "t" :=
  ⟨(c2_create_plan_amended "no plan here." "t").1 rfl,
   (c2_create_plan_amended ("x" ++ lbrace ++ "]y" ++ rbrace) "t").2.1
     (lbrace ++ "]y" ++ rbrace) rfl rfl⟩

/-- Counterexample to C3 as stated: `BaseAgent.execute_tool` performs no
type coercion.  With the echo capability registered under `web_search`
(whose real signature declares `max_results: int`), passing
`max_results = "5"` invokes the function with the string `"5"`, not the
integer `5`. -/
theorem c3_base_invoker_no_coercion_counterexample :
    execute_tool c3Registry "web_search" (Json.obj [("max_results", Json.str "5")])
      = Json.obj [("max_results", Json.str "5")]
  ∧ Json.obj [("max_results", Json.str "5")] ≠ Json.obj [("max_results", Json.int 5)] :=
  ⟨rfl, fun h => absurd (congrArg Json.dump h) (by decide)⟩

/-- C3 (amended): only the enhanced variant coerces: for a capability whose
signature declares `max_results` as `int`, `execute_tool_with_retry`
converts the argument string `"5"` to the integer `5` before dispatch and
invokes the underlying function with it. -/
theorem c3_enhanced_coercion_amended
    (func : Nat → List (String × PyVal) → Except String PyVal) (v : PyVal) :
    convert_args intParamSig strFiveArgs = Except.ok [("max_results", PyVal.vint 5)]
  ∧ (func 1 [("max_results", PyVal.vint 5)] = Except.ok v →
      execute_tool_with_retry intParamSig strFiveArgs func 3
        = (v, ⟨[⟨1, "success", none, none⟩], 1, "success", []⟩)) := by
  refine ⟨rfl, fun h => ?_⟩
  have hc : convert_args intParamSig strFiveArgs
      = Except.ok [("max_results", PyVal.vint 5)] := rfl
  simp only [execute_tool_with_retry, retryAux, hc, h, List.nil_append]

/-- Witness for C3 (amended): the echoing capability observes the converted
arguments: it receives the integer 5. -/
theorem c3_enhanced_coercion_witness :
    convert_args intParamSig strFiveArgs = Except.ok [("max_results", PyVal.vint 5)]
  ∧ execute_tool_with_retry intParamSig strFiveArgs echoFunc 3
      = (PyVal.vdict [("max_results", PyVal.vint 5)],
          ⟨[⟨1, "success", none, none⟩], 1, "success", []⟩) :=
  ⟨(c3_enhanced_coercion_amended echoFunc PyVal.vnone).1,
   (c3_enhanced_coercion_amended echoFunc
      (PyVal.vdict [("max_results", PyVal.vint 5)])).2 rfl⟩

/-- C8: with the default attempt cap of 3 and decodable arguments, a
network/timeout-classified failure is retried with exponentially growing
sleeps (0.1s, then 0.2s) up to the cap; a failure with any other
classification returns the error result on the first attempt with no
retry and no sleep; and a retried call can succeed on a later attempt. -/
theorem c8_retry_policy (sig : List (String × PyType)) (args : List (String × PyVal))
    (cargs : List (String × PyVal))
    (func : Nat → List (String × PyVal) → Except String PyVal)
    (hconv : convert_args sig args = Except.ok cargs) :
    ((∀ n, ∃ e, func n cargs = Except.error e ∧ classify_error e = "NETWORK_ERROR") →
        (execute_tool_with_retry sig args func 3).2.totalAttempts = 3
      ∧ (execute_tool_with_retry sig args func 3).2.finalStatus = "failed"
      ∧ (execute_tool_with_retry sig args func 3).2.sleptMs = [100, 200])
  ∧ (∀ e, func 1 cargs = Except.error e → should_retry (classify_error e) = false →
        (execute_tool_with_retry sig args func 3).1
          = PyVal.vdict [("error", PyVal.vstr e),
              ("error_type", PyVal.vstr (classify_error e))]
      ∧ (execute_tool_with_retry sig args func 3).2.totalAttempts = 1
      ∧ (execute_tool_with_retry sig args func 3).2.finalStatus = "failed"
      ∧ (execute_tool_with_retry sig args func 3).2.sleptMs = [])
  ∧ (∀ e v, func 1 cargs = Except.error e → classify_error e = "NETWORK_ERROR" →
        func 2 cargs = Except.ok v →
        (execute_tool_with_retry sig args func 3).1 = v
      ∧ (execute_tool_with_retry sig args func 3).2.totalAttempts = 2
      ∧ (execute_tool_with_retry sig args func 3).2.finalStatus = "success"
      ∧ (execute_tool_with_retry sig args func 3).2.sleptMs = [100]) := by
  refine ⟨fun H => ?_, fun e hf hs => ?_, fun e v hf1 hcl hf2 => ?_⟩
  · obtain ⟨e1, hf1, hc1⟩ := H 1
    obtain ⟨e2, hf2, hc2⟩ := H 2
    obtain ⟨e3, hf3, hc3⟩ := H 3
    have key : execute_tool_with_retry sig args func 3
        = (PyVal.vdict [("error", PyVal.vstr e3),
            ("error_type", PyVal.vstr "NETWORK_ERROR")],
           ⟨[⟨1, "failed", some e1, some "NETWORK_ERROR"⟩,
             ⟨2, "failed", some e2, some "NETWORK_ERROR"⟩,
             ⟨3, "failed", some e3, some "NETWORK_ERROR"⟩], 3, "failed", [100, 200]⟩) := by
      simp [execute_tool_with_retry, retryAux, hconv, hf1, hf2, hf3, hc1, hc2, hc3,
        should_retry]
    rw [key]
    exact ⟨rfl, rfl, rfl⟩
  · have key : execute_tool_with_retry sig args func 3
        = (PyVal.vdict [("error", PyVal.vstr e),
            ("error_type", PyVal.vstr (classify_error e))],
           ⟨[⟨1, "failed", some e, some (classify_error e)⟩], 1, "failed", []⟩) := by
      simp [execute_tool_with_retry, retryAux, hconv, hf, hs]
    rw [key]
    exact ⟨rfl, rfl, rfl, rfl⟩
  · have key : execute_tool_with_retry sig args func 3
        = (v, ⟨[⟨1, "failed", some e, some "NETWORK_ERROR"⟩,
            ⟨2, "success", none, none⟩], 2, "success", [100]⟩) := by
      simp [execute_tool_with_retry, retryAux, hconv, hf1, hcl, hf2, should_retry]
    rw [key]
    exact ⟨rfl, rfl, rfl, rfl⟩

/-- Witness for C8: a persistent connection failure exhausts the 3-attempt
cap with sleeps of 100ms and 200ms; a permission failure stops after one
attempt with no sleep; a single timeout followed by success returns the
success on attempt 2. -/
theorem c8_retry_policy_witness :
    (execute_tool_with_retry intParamSig strFiveArgs netFailFunc 3).2.totalAttempts = 3
  ∧ (execute_tool_with_retry intParamSig strFiveArgs netFailFunc 3).2.sleptMs = [100, 200]
  ∧ (execute_tool_with_retry intParamSig strFiveArgs permFailFunc 3).2.totalAttempts = 1
  ∧ (execute_tool_with_retry intParamSig strFiveArgs permFailFunc 3).2.sleptMs = []
  ∧ (execute_tool_with_retry intParamSig strFiveArgs flakyFunc 3).1 = PyVal.vstr "ok"
  ∧ (execute_tool_with_retry intParamSig strFiveArgs flakyFunc 3).2.sleptMs = [100] :=
  ⟨((c8_retry_policy intParamSig strFiveArgs _ netFailFunc rfl).1
      (fun _ => ⟨"connection refused", rfl, rfl⟩)).1,
   ((c8_retry_policy intParamSig strFiveArgs _ netFailFunc rfl).1
      (fun _ => ⟨"connection refused", rfl, rfl⟩)).2.2,
   ((c8_retry_policy intParamSig strFiveArgs _ permFailFunc rfl).2.1
      "permission denied" rfl rfl).2.1,
   ((c8_retry_policy intParamSig strFiveArgs _ permFailFunc rfl).2.1
      "permission denied" rfl rfl).2.2.2,
   ((c8_retry_policy intParamSig strFiveArgs _ flakyFunc rfl).2.2
      "connection timeout" (PyVal.vstr "ok") rfl rfl rfl).1,
   ((c8_retry_policy intParamSig strFiveArgs _ flakyFunc rfl).2.2
      "connection timeout" (PyVal.vstr "ok") rfl rfl rfl).2.2.2⟩

/-- C4: synthesis includes the output of every success-status step
(whatever the plan and results), returns a single successful step's output
verbatim with no added heading, and on the example
`(1 success "A", 2 failed "boom", 3 success "B")` contains `"A"` and `"B"`
but not the failed step's content. -/
theorem c4_synthesis_contract :
    (∀ (query : String) (plan : Plan) (results : Results) (k : Int) (r : StepResult)
        (o : String),
        (results.map Prod.fst).Nodup → (k, r) ∈ results → r.status = "success" →
        r.output = some o →
        o.data <:+: (synthesize_results query plan results).data)
  ∧ (∀ (query : String) (plan : Plan) (results : Results) (o : String),
        successOutputs results = [o] → synthesize_results query plan results = o)
  ∧ ("A".data <:+: (synthesize_results "q" c4Plan c4Results).data
    ∧ "B".data <:+: (synthesize_results "q" c4Plan c4Results).data
    ∧ ¬ "boom".data <:+: (synthesize_results "q" c4Plan c4Results).data) := by
  refine ⟨?_, ?_, ?_, ?_, ?_⟩
  · intro query plan results k r o hnd hm hs ho
    have hmem : o ∈ successOutputs results := mem_successOutputs hnd hm hs ho
    rcases hso : successOutputs results with _ | ⟨o1, _ | ⟨o2, rest2⟩⟩
    · rw [hso] at hmem
      cases hmem
    · rw [hso] at hmem
      simp only [List.mem_singleton] at hmem
      subst hmem
      simp only [synthesize_results, hso]
      exact List.infix_refl _
    · rw [hso] at hmem
      obtain ⟨i, hienum⟩ := mem_enum_snd hmem
      have hout := output_infix_foldl_stepBlock plan ((o1 :: o2 :: rest2).enum)
        ("# Results for: " ++ query ++ "\n\n") (i, o) hienum
      simp only [synthesize_results, hso]
      exact hout
  · intro query plan results o h
    simp only [synthesize_results, h]
  · decide
  · decide
  · decide

/-- Witness for C4 at concrete values: the general inclusion part applied
to step 1 of the example, and the verbatim part applied to a lone
successful step. -/
theorem c4_synthesis_witness :
    "A".data <:+: (synthesize_results "q2" c4Plan c4Results).data
  ∧ synthesize_results "solo" c4Plan [(7, ⟨"success", some "S", none, none⟩)] = "S" :=
  ⟨c4_synthesis_contract.1 "q2" c4Plan c4Results 1
      ⟨"success", some "A", none, some "researcher"⟩ "A" (by decide) (by decide) rfl rfl,
   c4_synthesis_contract.2.1 "solo" c4Plan [(7, ⟨"success", some "S", none, none⟩)] "S" rfl⟩

end AgenticAI
